import Mathlib

/-!
Shallow embedding of `simple-math-parser` (`src/main.rs`): the tokenizer,
the reverse-scan recursive parser and the `i32` evaluator, together with
theorems about the behaviour of the pipeline.

Modelling conventions:
* `u32` / `i32` machine arithmetic is modelled on `Nat` / `Int` with explicit
  reduction modulo `2 ^ 32` (release-mode wrapping semantics for the digit
  accumulator and for `+ - *` on `i32`).
* `errexit!` (print a message and exit the process) is modelled as
  `Except.error` carrying the exact message string.
* Rust panics during evaluation (division by zero, `i32::MIN / -1`) are
  modelled as `Except.error` carrying the Rust panic message.
* The shared `Peekable<Rev<Iter<Token>>>` iterator of `parse_block` is
  modelled by passing the reversed token list explicitly and returning the
  remaining list alongside the result.  The loop of `parse_block` together
  with its recursion is driven by an explicit fuel parameter; fuel
  `length + 1` is proved sufficient (`parseBlock_isSome`).
* Rust's Unicode character classes `char::is_numeric` (categories Nd, Nl,
  No) and `char::is_whitespace` (the White_Space property) and the partial
  `char::to_digit(10)` are modelled by `isNumericChar`,
  `isUnicodeWhitespace` and `toDigit10`.  `isUnicodeWhitespace` transcribes
  the complete White_Space table; `isNumericChar` is exact on every ASCII
  character (the scope of the universally quantified tokenizer theorems)
  and on the non-ASCII code points this development uses concretely.
  `to_digit(10).unwrap()` on a numeric character that is not an ASCII digit
  is an unwrap panic, modelled as an error.
-/

namespace SimpleMathParser

/-- The four binary operators (`enum Op` in the source). -/
inductive Op where
  | add
  | sub
  | mul
  | div
deriving DecidableEq, Repr

/-- Lexical tokens (`enum Token`).  The constant payload is the `u32`
accumulator value, hence a `Nat` that the tokenizer keeps below `2 ^ 32`. -/
inductive Token where
  | operator (op : Op)
  | constant (n : Nat)
  | parenOpen
  | parenClose
deriving DecidableEq, Repr

/-- `2 ^ 32`, the modulus of the `u32` digit accumulator. -/
def U32_MOD : Nat := 4294967296

/-- `i32::MAX`, the largest constant accepted by `u32 → i32` conversion. -/
def I32_MAX : Nat := 2147483647

/-- Rust's `char::is_whitespace`: the Unicode White_Space property,
transcribed in full (U+0009..U+000D, U+0020, U+0085, U+00A0, U+1680,
U+2000..U+200A, U+2028, U+2029, U+202F, U+205F, U+3000). -/
def isUnicodeWhitespace (c : Char) : Bool :=
  (0x9 ≤ c.toNat && c.toNat ≤ 0xD) || c.toNat = 0x20 || c.toNat = 0x85 ||
  c.toNat = 0xA0 || c.toNat = 0x1680 ||
  (0x2000 ≤ c.toNat && c.toNat ≤ 0x200A) ||
  c.toNat = 0x2028 || c.toNat = 0x2029 || c.toNat = 0x202F ||
  c.toNat = 0x205F || c.toNat = 0x3000

/-- Rust's `char::is_numeric` (Unicode general categories Nd, Nl, No).  On
ASCII characters this is exactly `Char.isDigit` (`'0'..'9'`), which is all
the universally quantified theorems below rely on; beyond ASCII only the
code points this development uses concretely are transcribed (the vulgar
fractions U+00BC..U+00BE and the arabic-indic digits U+0660..U+0669), not
the full Unicode tables. -/
def isNumericChar (c : Char) : Bool :=
  c.isDigit || (0xBC ≤ c.toNat && c.toNat ≤ 0xBE) ||
  (0x660 ≤ c.toNat && c.toNat ≤ 0x669)

/-- Rust's `char::to_digit(10)`: `some` exactly on the ASCII digits. -/
def toDigit10 (c : Char) : Option Nat :=
  if c.isDigit then some (c.toNat - 48) else none

/-- The inner digit loop of `tokenize`: folds a maximal run of numeric
characters into the wrapping `u32` accumulator (`constant *= 10;
constant += digit.to_digit(10).unwrap()`) and returns the accumulator with
the unconsumed remainder of the input.  A numeric character that is not an
ASCII digit makes `unwrap` panic, modelled as an error. -/
def readNum (acc : Nat) : List Char → Except String (Nat × List Char)
  | [] => .ok (acc, [])
  | c :: cs =>
    if isNumericChar c then
      match toDigit10 c with
      | some d => readNum ((acc * 10 + d) % U32_MOD) cs
      | none => .error "panicked: called `Option::unwrap()` on a `None` value"
    else .ok (acc, c :: cs)

/-- `tokens.push(t)` on a tokenizer result that may already have failed. -/
def pushTok (t : Token) : Except String (List Token) → Except String (List Token)
  | .ok ts => .ok (t :: ts)
  | .error e => .error e

/-- Fuelled form of `tokenize`.  One unit of fuel per loop iteration of the
source's `while let Some(c) = iter.peek()` loop; every iteration consumes at
least one character, so fuel `length + 1` suffices. -/
def tokenizeF : Nat → List Char → Except String (List Token)
  | 0, _ => .error "Internal: tokenizer fuel exhausted"
  | _ + 1, [] => .ok []
  | fuel + 1, c :: cs =>
    if isNumericChar c then
      match readNum 0 (c :: cs) with
      | .error e => .error e
      | .ok p => pushTok (.constant p.1) (tokenizeF fuel p.2)
    else if isUnicodeWhitespace c then tokenizeF fuel cs
    else if c = '+' then pushTok (.operator .add) (tokenizeF fuel cs)
    else if c = '-' then pushTok (.operator .sub) (tokenizeF fuel cs)
    else if c = '*' then pushTok (.operator .mul) (tokenizeF fuel cs)
    else if c = '/' then pushTok (.operator .div) (tokenizeF fuel cs)
    else if c = '(' then pushTok .parenOpen (tokenizeF fuel cs)
    else if c = ')' then pushTok .parenClose (tokenizeF fuel cs)
    else .error "Unknown operator!"

/-- `fn tokenize(s: &str) -> Vec<Token>`, with `errexit!` as `Except.error`. -/
def tokenize (cs : List Char) : Except String (List Token) :=
  tokenizeF (cs.length + 1) cs

/-- The expression tree (`enum Expression`). -/
inductive Expression where
  | operator (op : Op) (a b : Expression)
  | constant (n : Int)
deriving DecidableEq, Repr

/-- The code after `parse_block`'s scanning loop: the unmatched-parenthesis
check followed by the choice between `expr` and `operand`.  `rem` is what is
left of the iterator when the loop stopped. -/
def Expression.finishBlock (isParenBlock parenCloseMatched : Bool)
    (expr operand : Option Expression) (rem : List Token) :
    Except String (Expression × List Token) :=
  if isParenBlock && !parenCloseMatched then
    .error "Unmatched parenthesis!"
  else
    match expr with
    | some e => .ok (e, rem)
    | none =>
      match operand with
      | some o => .ok (o, rem)
      | none => .error "Expected an operand!"

/-- `Expression::parse_block`.  The token list is the reversed token sequence
(the `Rev` iterator); the `expr` and `operand` arguments are the two mutable
slots of the loop, threaded through the tail-recursive encoding of the loop.
Returns `none` only when fuel runs out.  In the `operator` arm the nested
block is parsed before the pending operand is examined, mirroring Rust's
left-to-right argument evaluation in the `Expression::Operator` constructor
call. -/
def Expression.parseBlock :
    Nat → List Token → Bool → Option Expression → Option Expression →
    Option (Except String (Expression × List Token))
  | 0, _, _, _, _ => none
  | _ + 1, [], isParenBlock, expr, operand =>
    some (Expression.finishBlock isParenBlock false expr operand [])
  | fuel + 1, t :: rest, isParenBlock, expr, operand =>
    match t with
    | .parenOpen =>
      if isParenBlock then
        some (Expression.finishBlock isParenBlock true expr operand rest)
      else
        some (Expression.finishBlock isParenBlock false expr operand
          (.parenOpen :: rest))
    | .constant n =>
      if n ≤ I32_MAX then
        Expression.parseBlock fuel rest isParenBlock expr
          (some (.constant (Int.ofNat n)))
      else
        some (.error "Out of bounds!")
    | .operator op =>
      match Expression.parseBlock fuel rest false none none with
      | none => none
      | some (.error msg) => some (.error msg)
      | some (.ok (a, rest1)) =>
        match operand with
        | none => some (.error "Expected an operand!")
        | some b =>
          Expression.parseBlock fuel rest1 isParenBlock
            (some (.operator op a b)) none
    | .parenClose =>
      match Expression.parseBlock fuel rest true none none with
      | none => none
      | some (.error msg) => some (.error msg)
      | some (.ok (inner, rest1)) =>
        Expression.parseBlock fuel rest1 isParenBlock expr (some inner)

/-- `Expression::parse`: run `parse_block` on the reversed token sequence in
non-paren mode; leftover tokens are dropped, exactly as the source ignores
the iterator after the top-level `parse_block` returns. -/
def Expression.parse (tokens : List Token) : Except String Expression :=
  match Expression.parseBlock (tokens.length + 1) tokens.reverse false
      none none with
  | some (.ok (e, _)) => .ok e
  | some (.error msg) => .error msg
  | none => .error "Internal: parser fuel exhausted"

/-- Wrap an unbounded integer into the `i32` range (release-mode overflow
semantics of `+ - *`). -/
def i32wrap (x : Int) : Int :=
  (x + 2147483648) % 4294967296 - 2147483648

/-- `Expression::evaluate`.  `Int.tdiv` is truncating (T-)division, matching
Rust's `/` on `i32`; the two division panics of Rust (`y = 0` and
`i32::MIN / -1`) become errors. -/
def Expression.evaluate : Expression → Except String Int
  | .constant n => .ok n
  | .operator op a b =>
    match Expression.evaluate a with
    | .error msg => .error msg
    | .ok x =>
      match Expression.evaluate b with
      | .error msg => .error msg
      | .ok y =>
        match op with
        | .add => .ok (i32wrap (x + y))
        | .sub => .ok (i32wrap (x - y))
        | .mul => .ok (i32wrap (x * y))
        | .div =>
          if y = 0 then .error "attempt to divide by zero"
          else if x = -2147483648 ∧ y = -1 then
            .error "attempt to divide with overflow"
          else .ok (Int.tdiv x y)

/-- The whole pipeline on a character sequence:
`Expression::parse(&tokenize(s)).evaluate()`. -/
def run (cs : List Char) : Except String Int :=
  match tokenize cs with
  | .error msg => .error msg
  | .ok ts =>
    match Expression.parse ts with
    | .error msg => .error msg
    | .ok e => Expression.evaluate e

/-- The pipeline on a string literal. -/
def runStr (s : String) : Except String Int :=
  run s.data

/-- Characters the tokenizer maps to a token directly. -/
def isOpChar (c : Char) : Bool :=
  c = '+' || c = '-' || c = '*' || c = '/' || c = '(' || c = ')'

/-- Characters on which the tokenizer fails with "Unknown operator!": not
numeric, not whitespace, not one of the six recognised symbols. -/
def isBadChar (c : Char) : Bool :=
  !isNumericChar c && !isUnicodeWhitespace c && !isOpChar c

/-- Whether the tree contains a `Div` node whose right subtree evaluates
to zero. -/
def Expression.hasDivByZero : Expression → Bool
  | .constant _ => false
  | .operator op a b =>
    (match op, Expression.evaluate b with
     | Op.div, .ok y => y == 0
     | _, _ => false)
    || Expression.hasDivByZero a || Expression.hasDivByZero b

/-! ## Helper lemmas -/

/-- `finishBlock` succeeds only with the remainder it was handed. -/
theorem finishBlock_ok_rest {p m : Bool} {e o : Option Expression}
    {rem : List Token} {r : Expression} {rest : List Token}
    (h : Expression.finishBlock p m e o rem = .ok (r, rest)) : rest = rem := by
  unfold Expression.finishBlock at h
  split at h
  · exact absurd h (by simp)
  · cases e with
    | some e0 => simp at h; exact h.2.symm
    | none =>
      cases o with
      | some o0 => simp at h; exact h.2.symm
      | none => exact absurd h (by simp)

/-- A successful `parse_block` never leaves more tokens than it was given:
the remainder is no longer than the input. -/
theorem parseBlock_rest_le :
    ∀ (fuel : Nat) (ts : List Token) (p : Bool) (e o : Option Expression)
      (r : Expression) (rest : List Token),
      Expression.parseBlock fuel ts p e o = some (.ok (r, rest)) →
      rest.length ≤ ts.length := by
  intro fuel
  induction fuel with
  | zero => intro ts p e o r rest h; exact absurd h (by simp [Expression.parseBlock])
  | succ f ih =>
    intro ts p e o r rest h
    cases ts with
    | nil =>
      simp only [Expression.parseBlock, Option.some.injEq] at h
      simp [finishBlock_ok_rest h]
    | cons t rest0 =>
      cases t with
      | parenOpen =>
        simp only [Expression.parseBlock] at h
        split at h
        · simp only [Option.some.injEq] at h
          have := finishBlock_ok_rest h
          subst this
          simp
        · simp only [Option.some.injEq] at h
          have := finishBlock_ok_rest h
          subst this
          simp
      | constant n =>
        simp only [Expression.parseBlock] at h
        split at h
        · have := ih rest0 p e (some (.constant (Int.ofNat n))) r rest h
          simp; omega
        · exact absurd h (by simp)
      | operator op =>
        simp only [Expression.parseBlock] at h
        cases hin : Expression.parseBlock f rest0 false none none with
        | none => rw [hin] at h; exact absurd h (by simp)
        | some res =>
          rw [hin] at h
          cases res with
          | error msg => exact absurd h (by simp)
          | ok pr =>
            obtain ⟨a, rest1⟩ := pr
            have h1 := ih rest0 false none none a rest1 hin
            cases o with
            | none => exact absurd h (by simp)
            | some b =>
              simp only at h
              have h2 := ih rest1 p (some (.operator op a b)) none r rest h
              simp; omega
      | parenClose =>
        simp only [Expression.parseBlock] at h
        cases hin : Expression.parseBlock f rest0 true none none with
        | none => rw [hin] at h; exact absurd h (by simp)
        | some res =>
          rw [hin] at h
          cases res with
          | error msg => exact absurd h (by simp)
          | ok pr =>
            obtain ⟨inner, rest1⟩ := pr
            have h1 := ih rest0 true none none inner rest1 hin
            simp only at h
            have h2 := ih rest1 p e (some inner) r rest h
            simp; omega

/-- An ASCII numeric character is a decimal digit: the non-ASCII ranges of
`isNumericChar` all lie above code point 127. -/
theorem ascii_numeric_isDigit {c : Char} (ha : c.toNat < 128)
    (hn : isNumericChar c = true) : c.isDigit = true := by
  unfold isNumericChar at hn
  simp only [Bool.or_eq_true, Bool.and_eq_true, decide_eq_true_eq] at hn
  rcases hn with (h | h) | h
  · exact h
  · omega
  · omega

/-- On an ASCII character list the digit loop never panics and stops exactly
at the first non-numeric character. -/
theorem readNum_ascii :
    ∀ (acc : Nat) (cs : List Char), (∀ c ∈ cs, c.toNat < 128) →
      ∃ n, readNum acc cs = .ok (n, cs.dropWhile isNumericChar) := by
  intro acc cs
  induction cs generalizing acc with
  | nil => intro h; exact ⟨acc, by simp [readNum, List.dropWhile]⟩
  | cons c cs ih =>
    intro h
    by_cases hc : isNumericChar c = true
    · have hd : c.isDigit = true :=
        ascii_numeric_isDigit (h c (by simp)) hc
      have htail : ∀ x ∈ cs, x.toNat < 128 := fun x hx => h x (by simp [hx])
      obtain ⟨n, hn⟩ := ih ((acc * 10 + (c.toNat - 48)) % U32_MOD) htail
      refine ⟨n, ?_⟩
      simp [readNum, hc, toDigit10, hd, List.dropWhile, hn]
    · refine ⟨acc, ?_⟩
      simp [readNum, hc, List.dropWhile]

/-- A bad character is not numeric. -/
theorem isBadChar_not_numeric {c : Char} (h : isBadChar c = true) :
    isNumericChar c = false := by
  unfold isBadChar at h
  simp only [Bool.and_eq_true, Bool.not_eq_true'] at h
  exact h.1.1

/-- Dropping a numeric prefix keeps the presence of a bad character. -/
theorem any_isBadChar_dropWhile (cs : List Char)
    (h : cs.any isBadChar = true) :
    (cs.dropWhile isNumericChar).any isBadChar = true := by
  induction cs with
  | nil => simp at h
  | cons c cs ih =>
    by_cases hc : isNumericChar c = true
    · simp only [List.dropWhile, hc]
      apply ih
      simp only [List.any_cons, Bool.or_eq_true] at h
      rcases h with h | h
      · rw [isBadChar_not_numeric h] at hc; cases hc
      · exact h
    · simpa [List.dropWhile, hc] using h

/-- A bad character in an ASCII input makes the fuelled tokenizer fail with
the lexical error, given sufficient fuel.  (ASCII excludes the unwrap-panic
path of the digit loop, which preempts the lexical error on inputs such as
`"½@"`.) -/
theorem tokenizeF_bad :
    ∀ (fuel : Nat) (cs : List Char), cs.length < fuel →
      (∀ c ∈ cs, c.toNat < 128) → cs.any isBadChar = true →
      tokenizeF fuel cs = .error "Unknown operator!" := by
  intro fuel
  induction fuel with
  | zero => intro cs h; omega
  | succ f ih =>
    intro cs hlen hascii hbad
    cases cs with
    | nil => simp at hbad
    | cons c cs0 =>
      simp only [List.any_cons, Bool.or_eq_true] at hbad
      have hascii0 : ∀ x ∈ cs0, x.toNat < 128 := fun x hx =>
        hascii x (by simp [hx])
      by_cases hd : isNumericChar c = true
      · have hcb : isBadChar c = false := by
          unfold isBadChar; simp [hd]
        have hbad0 : cs0.any isBadChar = true := by
          rcases hbad with h | h
          · rw [hcb] at h; cases h
          · exact h
        obtain ⟨n, hrn⟩ := readNum_ascii 0 (c :: cs0) hascii
        have hrest : (c :: cs0).dropWhile isNumericChar =
            cs0.dropWhile isNumericChar := by
          simp [List.dropWhile, hd]
        rw [hrest] at hrn
        have hsub : ∀ x ∈ cs0.dropWhile isNumericChar, x.toNat < 128 :=
          fun x hx => hascii0 x
            ((List.dropWhile_sublist (l := cs0)
              (p := isNumericChar)).subset hx)
        have hlen2 : (cs0.dropWhile isNumericChar).length < f := by
          have := List.Sublist.length_le (List.dropWhile_sublist
            (l := cs0) (p := isNumericChar))
          simp only [List.length_cons] at hlen
          omega
        have hbad2 := any_isBadChar_dropWhile cs0 hbad0
        simp only [tokenizeF, hd, if_true, hrn,
          ih _ hlen2 hsub hbad2, pushTok]
      · have hlen0 : cs0.length < f := by
          simp only [List.length_cons] at hlen; omega
        by_cases hw : isUnicodeWhitespace c = true
        · have hcb : isBadChar c = false := by
            unfold isBadChar; simp [hw]
          have hbad0 : cs0.any isBadChar = true := by
            rcases hbad with h | h
            · rw [hcb] at h; cases h
            · exact h
          simp [tokenizeF, hd, hw, ih _ hlen0 hascii0 hbad0]
        · by_cases hop : isOpChar c = true
          · have hcb : isBadChar c = false := by
              unfold isBadChar; simp [hop]
            have hbad0 : cs0.any isBadChar = true := by
              rcases hbad with h | h
              · rw [hcb] at h; cases h
              · exact h
            have htail := ih _ hlen0 hascii0 hbad0
            unfold isOpChar at hop
            simp only [Bool.or_eq_true, decide_eq_true_eq] at hop
            rcases hop with ((((h1 | h1) | h1) | h1) | h1) | h1 <;>
              subst h1 <;>
              simp [tokenizeF, htail, pushTok, hd, hw]
          · unfold isOpChar at hop
            simp only [Bool.or_eq_true, decide_eq_true_eq, not_or] at hop
            obtain ⟨⟨⟨⟨⟨h1, h2⟩, h3⟩, h4⟩, h5⟩, h6⟩ := hop
            simp [tokenizeF, hd, hw, h1, h2, h3, h4, h5, h6]

/-! ## Claims -/

/-- C1: the claim states that `*` and `/` bind tighter than `+` and `-` and
that `"2+3*4"` evaluates to 14.  The code disagrees: every operator obtains
its left child from a full recursive sub-parse of all remaining tokens, so
`"2+3*4"` is parsed as `(2+3)*4` and evaluates to 20, while `"(2+3)*4"`
evaluates to 20 as the claim says.  This theorem records the code's actual
behaviour on both inputs. -/
theorem claim_C1 : runStr "2+3*4" = .ok 20 ∧ runStr "(2+3)*4" = .ok 20 :=
  ⟨rfl, rfl⟩

/-- C2: the claim states that `"(1+2"` fails with "Unmatched parenthesis!".
The code disagrees: the stray `(` merely stops the top-level block scan, and
`Expression::parse` ignores the unconsumed remainder of the iterator, so
`"(1+2"` evaluates to 3.  Only an unmatched close parenthesis (a paren block
that exhausts the reversed token stream), e.g. `"1+2)"`, produces the error.
This theorem records the code's actual behaviour on both inputs. -/
theorem claim_C2 :
    runStr "(1+2" = .ok 3 ∧
    runStr "1+2)" = .error "Unmatched parenthesis!" :=
  ⟨rfl, rfl⟩

/-- C3 counterexample: the claim states that any literal larger than
`2147483648` also fails, naming `"4294967296"`.  The tokenizer's `u32`
accumulator wraps modulo `2 ^ 32`, so `"4294967296"` becomes the constant 0
and the pipeline succeeds with result 0. -/
theorem claim_C3_counterexample : runStr "4294967296" = .ok 0 := rfl

/-- C3 (amended): a constant token whose (wrapped, `< 2 ^ 32`) value exceeds
`i32::MAX` makes the parser fail with "Out of bounds!"; in particular
`"2147483648"` fails.  A literal of `2 ^ 32` or more is first reduced modulo
`2 ^ 32` by the tokenizer's accumulator and can therefore succeed:
`"4294967296"` evaluates to 0. -/
theorem claim_C3 :
    (∀ n : Nat, I32_MAX < n →
      Expression.parse [Token.constant n] = .error "Out of bounds!") ∧
    runStr "2147483648" = .error "Out of bounds!" ∧
    runStr "4294967296" = .ok 0 := by
  refine ⟨?_, rfl, rfl⟩
  intro n hn
  have h2 : ¬(n ≤ I32_MAX) := by omega
  simp [Expression.parse, Expression.parseBlock, h2]

/-- C3 witness: the general out-of-bounds statement applied at the concrete
constant 2147483648. -/
theorem claim_C3_witness :
    I32_MAX < 2147483648 ∧
    Expression.parse [Token.constant 2147483648] = .error "Out of bounds!" :=
  ⟨by decide, claim_C3.1 2147483648 (by decide)⟩

/-- C4: operators of equal precedence associate left-to-right: `"10-2-3"`
evaluates to 5, and the token sequence `10 - 2 - 3` parses to the tree
`(10-2)-3`. -/
theorem claim_C4 :
    runStr "10-2-3" = .ok 5 ∧
    Expression.parse
        [Token.constant 10, Token.operator Op.sub, Token.constant 2,
         Token.operator Op.sub, Token.constant 3] =
      .ok (Expression.operator Op.sub
        (Expression.operator Op.sub (Expression.constant 10)
          (Expression.constant 2))
        (Expression.constant 3)) :=
  ⟨rfl, rfl⟩

/-- C5: a `Div` node with defined operands, a nonzero right operand and no
`i32::MIN / -1` overflow evaluates to the truncating (toward-zero) integer
division `Int.tdiv`; concretely `"7/2"` evaluates to 3, `"1-4"` to -3 and
`"(1-4)/2"` to -1 (truncation toward zero, not floor). -/
theorem claim_C5 :
    (∀ (a b : Expression) (x y : Int),
      Expression.evaluate a = .ok x → Expression.evaluate b = .ok y →
      y ≠ 0 → ¬(x = -2147483648 ∧ y = -1) →
      Expression.evaluate (Expression.operator Op.div a b) =
        .ok (Int.tdiv x y)) ∧
    runStr "7/2" = .ok 3 ∧ runStr "1-4" = .ok (-3) ∧
    runStr "(1-4)/2" = .ok (-1) := by
  refine ⟨?_, rfl, rfl, rfl⟩
  intro a b x y ha hb hy hmin
  simp [Expression.evaluate, ha, hb, hy, hmin]

/-- C5 witness: the general division statement applied to the literal tree
of `7 / 2`. -/
theorem claim_C5_witness :
    Expression.evaluate
      (Expression.operator Op.div (Expression.constant 7)
        (Expression.constant 2)) = .ok 3 :=
  claim_C5.1 (Expression.constant 7) (Expression.constant 2) 7 2 rfl rfl
    (by decide) (by decide)

/-- C6: a tree containing a `Div` node whose right subtree evaluates to zero
never evaluates to a numeric result, and the pipeline on `"1/0"` fails with
the division-by-zero error. -/
theorem claim_C6 :
    (∀ e : Expression, Expression.hasDivByZero e = true →
      ∀ v : Int, Expression.evaluate e ≠ .ok v) ∧
    runStr "1/0" = .error "attempt to divide by zero" := by
  refine ⟨?_, rfl⟩
  intro e
  induction e with
  | constant n => intro h; simp [Expression.hasDivByZero] at h
  | operator op a b iha ihb =>
    intro h v hv
    simp only [Expression.hasDivByZero, Bool.or_eq_true] at h
    cases ha : Expression.evaluate a with
    | error m => simp [Expression.evaluate, ha] at hv
    | ok x =>
      cases hb : Expression.evaluate b with
      | error m => simp [Expression.evaluate, ha, hb] at hv
      | ok y =>
        simp only [Expression.evaluate, ha, hb] at hv
        rcases h with (hm | hA) | hB
        · rw [hb] at hm
          cases op with
          | div =>
            simp only [beq_iff_eq] at hm
            subst hm
            simp at hv
          | add => simp at hm
          | sub => simp at hm
          | mul => simp at hm
        · exact iha hA x ha
        · exact ihb hB y hb

/-- C6 witness: the general statement applied to the tree of `1 / 0`. -/
theorem claim_C6_witness :
    Expression.hasDivByZero
        (Expression.operator Op.div (Expression.constant 1)
          (Expression.constant 0)) = true ∧
    Expression.evaluate
        (Expression.operator Op.div (Expression.constant 1)
          (Expression.constant 0)) ≠ .ok 1 :=
  ⟨rfl, claim_C6.1
    (Expression.operator Op.div (Expression.constant 1)
      (Expression.constant 0)) rfl 1⟩

/-- C7: a missing operand is a parse error: both `"+1"` (no operand to the
left of `+` once the nested block is exhausted) and `"1+"` (no pending
operand to the right of `+` in the reverse scan) fail with
"Expected an operand!". -/
theorem claim_C7 :
    runStr "+1" = .error "Expected an operand!" ∧
    runStr "1+" = .error "Expected an operand!" :=
  ⟨rfl, rfl⟩

/-- C8 counterexample: the character `'½'` (U+00BD) is not a decimal digit,
not whitespace and not one of `+ - * / ( )`, yet tokenizing it does not
produce "Unknown operator!": `'½'` satisfies `char::is_numeric`, so the
digit loop takes it and panics at `to_digit(10).unwrap()` instead. -/
theorem claim_C8_counterexample :
    tokenize ['½'] =
      .error "panicked: called `Option::unwrap()` on a `None` value" ∧
    tokenize ['½'] ≠ .error "Unknown operator!" := by
  constructor
  · rfl
  · intro h
    rw [show tokenize ['½'] =
        Except.error "panicked: called `Option::unwrap()` on a `None` value"
      from rfl] at h
    injection h with h2
    exact absurd h2 (by decide)

/-- C8 (amended): on an input of ASCII characters, any character that is
neither a digit, nor whitespace, nor one of `+ - * / ( )` makes the
tokenizer fail with "Unknown operator!" (so no token sequence is produced
at all); in particular `"1+@"` fails that way.  Outside ASCII the lexical
error is not guaranteed: Unicode whitespace is skipped, and a numeric
character that is not a decimal digit (such as `'½'`) panics at
`to_digit(10).unwrap()` instead of reporting the lexical error. -/
theorem claim_C8 :
    (∀ cs : List Char, (∀ c ∈ cs, c.toNat < 128) →
      cs.any isBadChar = true →
      tokenize cs = .error "Unknown operator!") ∧
    runStr "1+@" = .error "Unknown operator!" := by
  refine ⟨?_, rfl⟩
  intro cs ha h
  exact tokenizeF_bad (cs.length + 1) cs (by omega) ha h

/-- C8 witness: the general statement applied to the single bad character
`'@'`. -/
theorem claim_C8_witness :
    (∀ c ∈ (['@'] : List Char), c.toNat < 128) ∧
    (['@'] : List Char).any isBadChar = true ∧
    tokenize ['@'] = .error "Unknown operator!" :=
  ⟨by decide, rfl, claim_C8.1 ['@'] (by decide) rfl⟩

/-- C9: `parse_block` terminates on every finite token sequence.  Each loop
iteration that does not break consumes one token and each recursive call is
entered after consuming at least one token, so one unit of fuel per
remaining token suffices: with fuel exceeding the number of remaining tokens
the fuelled parser never runs out of fuel. -/
theorem claim_C9 :
    ∀ (fuel : Nat) (ts : List Token) (isParenBlock : Bool)
      (expr operand : Option Expression), ts.length < fuel →
      (Expression.parseBlock fuel ts isParenBlock expr operand).isSome = true := by
  intro fuel
  induction fuel with
  | zero => intro ts p e o h; omega
  | succ f ih =>
    intro ts p e o hlen
    cases ts with
    | nil => simp [Expression.parseBlock]
    | cons t rest0 =>
      have hlen0 : rest0.length < f := by
        simp only [List.length_cons] at hlen; omega
      cases t with
      | parenOpen =>
        simp only [Expression.parseBlock]
        split <;> simp
      | constant n =>
        simp only [Expression.parseBlock]
        split
        · exact ih rest0 p e (some (.constant (Int.ofNat n))) hlen0
        · simp
      | operator op =>
        simp only [Expression.parseBlock]
        cases hin : Expression.parseBlock f rest0 false none none with
        | none =>
          have := ih rest0 false none none hlen0
          rw [hin] at this
          simp at this
        | some res =>
          cases res with
          | error msg => simp
          | ok pr =>
            obtain ⟨a, rest1⟩ := pr
            cases o with
            | none => simp
            | some b =>
              have hr1 : rest1.length < f :=
                lt_of_le_of_lt
                  (parseBlock_rest_le f rest0 false none none a rest1 hin)
                  hlen0
              exact ih rest1 p (some (.operator op a b)) none hr1
      | parenClose =>
        simp only [Expression.parseBlock]
        cases hin : Expression.parseBlock f rest0 true none none with
        | none =>
          have := ih rest0 true none none hlen0
          rw [hin] at this
          simp at this
        | some res =>
          cases res with
          | error msg => simp
          | ok pr =>
            obtain ⟨inner, rest1⟩ := pr
            have hr1 : rest1.length < f :=
              lt_of_le_of_lt
                (parseBlock_rest_le f rest0 true none none inner rest1 hin)
                hlen0
            exact ih rest1 p e (some inner) hr1

/-- C9 witness: fuel 2 suffices for the one-token sequence `[1]`. -/
theorem claim_C9_witness :
    ([Token.constant 1] : List Token).length < 2 ∧
    (Expression.parseBlock 2 [Token.constant 1] false none none).isSome = true :=
  ⟨by decide, claim_C9 2 [Token.constant 1] false none none (by decide)⟩

/-- C10: two adjacent constant tokens are not a parse error: in the reverse
scan the constant scanned later (the leftmost one) overwrites the pending
operand, so parsing `[a, b]` yields the constant `a`, and the input
`"1 2"` evaluates to 1. -/
theorem claim_C10 :
    (∀ a b : Nat, a ≤ I32_MAX → b ≤ I32_MAX →
      Expression.parse [Token.constant a, Token.constant b] =
        .ok (Expression.constant (Int.ofNat a))) ∧
    runStr "1 2" = .ok 1 := by
  refine ⟨?_, rfl⟩
  intro a b ha hb
  simp [Expression.parse, Expression.parseBlock, Expression.finishBlock,
    ha, hb]

/-- C10 witness: the general statement applied to the tokens `1 2`. -/
theorem claim_C10_witness :
    (1 : Nat) ≤ I32_MAX ∧ (2 : Nat) ≤ I32_MAX ∧
    Expression.parse [Token.constant 1, Token.constant 2] =
      .ok (Expression.constant 1) :=
  ⟨by decide, by decide, claim_C10.1 1 2 (by decide) (by decide)⟩

end SimpleMathParser
